import Mathlib

-- Verification of the TLG Blender importer (import_tlg.py).
-- Shallow embedding conventions:
--  * files are byte lists (List Nat, each byte < 256 in concrete inputs);
--  * Python ints are Int, machine 32-bit values are decoded with an explicit
--    two-complement wrap; Python floor division is Int.fdiv;
--  * IEEE-754 binary32 values are modeled by their exact rational value
--    (decodeFloat32); nonfinite bit patterns (exponent 255) are outside the
--    scope of the model and mapped to 0; float literals in the source are
--    modeled by their exact decimal value;
--  * math.sqrt is modeled by Real.sqrt.

-- ---------------------------------------------------------------------------
-- Byte-level primitives
-- ---------------------------------------------------------------------------

/-- Little-endian value of a byte list (first byte is least significant). -/
def bytesToNatLE (bs : List Nat) : Nat :=
  bs.foldr (fun b acc => b + 256 * acc) 0

/-- Reinterpret a 32-bit word as a signed two-complement integer
(struct format code i). -/
def toInt32 (n : Nat) : Int :=
  let m := n % 4294967296
  if m < 2147483648 then (m : Int) else (m : Int) - 4294967296

/-- The unsigned little-endian field of width w starting at byte offset off. -/
def fieldLE (bs : List Nat) (off w : Nat) : Nat :=
  bytesToNatLE ((bs.drop off).take w)

/-- Exact rational value of an IEEE-754 binary32 bit pattern (struct format
code f): sign * 1.mantissa * 2 ^ (e - 127) for normal numbers, a subnormal
sign * m * 2 ^ (-149) when e = 0.  Nonfinite patterns (exponent 255) cannot
carry a rational value and are mapped to 0; no claim exercises them. -/
def decodeFloat32 (n : Nat) : ℚ :=
  let b := n % 4294967296
  let sign : Int := if b / 2147483648 = 1 then -1 else 1
  let e := (b / 8388608) % 256
  let m := b % 8388608
  if e = 0 then mkRat (sign * m) (2 ^ 149)
  else if e = 255 then 0
  else if e ≤ 150 then mkRat (sign * (8388608 + m)) (2 ^ (150 - e))
  else mkRat (sign * ((8388608 + m) * 2 ^ (e - 150))) 1

-- ---------------------------------------------------------------------------
-- Animation decoding (TLGAnimReader)
-- ---------------------------------------------------------------------------

/-- The two payload kinds of _unpack_data. -/
inductive DType
  | vec3
  | quat
deriving DecidableEq

/-- A decoded animation sample: mathutils Vector((x, y, z)) or
Quaternion((w, x, y, z)). -/
inductive AnimVal
  | v3 (x y z : ℚ)
  | qt (w : ℝ) (x y z : ℚ)

/-- Reconstruction of the quaternion w component from the stored squared
magnitude, from TLGAnimReader._unpack_data:
w = math.sqrt(1.0 - min(1.0, mag_sq)) if mag_sq <= 1.001 else 0.0. -/
noncomputable def recon_w (magSq : ℚ) : ℝ :=
  if magSq ≤ 1.001 then Real.sqrt (1 - ((min 1 magSq : ℚ) : ℝ)) else 0

/-- TLGAnimReader._unpack_data: decodes num_keys samples of 12 bytes (three
packed binary32 floats) starting at start_offset.  A block that would run past
the end of the buffer yields a single default sample.  In bounds, every
12-byte chunk decodes without error, so exactly num_keys samples result. -/
noncomputable def _unpack_data (raw : List Nat) (start_offset num_keys : Nat)
    (dt : DType) : List AnimVal :=
  if raw.length < start_offset + 12 * num_keys then
    match dt with
    | DType.vec3 => [AnimVal.v3 0 0 0]
    | DType.quat => [AnimVal.qt 1 0 0 0]
  else
    (List.range num_keys).map (fun i =>
      let x := decodeFloat32 (fieldLE raw (start_offset + 12 * i) 4)
      let y := decodeFloat32 (fieldLE raw (start_offset + 12 * i + 4) 4)
      let z := decodeFloat32 (fieldLE raw (start_offset + 12 * i + 8) 4)
      match dt with
      | DType.vec3 => AnimVal.v3 x y z
      | DType.quat => AnimVal.qt (recon_w (x * x + y * y + z * z)) x y z)

/-- Per-channel key counts from TLGAnimReader._parse_tracks:
trans_keys = num_frames if flag in [0, 3, 4, 5] else 1. -/
def trans_keys (flag num_frames : Nat) : Nat :=
  if flag ∈ [0, 3, 4, 5] then num_frames else 1

/-- rot_keys = num_frames if flag in [0, 4, 6] else 1. -/
def rot_keys (flag num_frames : Nat) : Nat :=
  if flag ∈ [0, 4, 6] then num_frames else 1

/-- scale_keys = num_frames if flag in [0, 3] else 1. -/
def scale_keys (flag num_frames : Nat) : Nat :=
  if flag ∈ [0, 3] then num_frames else 1

/-- The three channels decoded for one track entry in _parse_tracks. -/
noncomputable def parse_track_channels (raw : List Nat) (flag num_frames : Nat)
    (pT pR pS : Nat) : List AnimVal × List AnimVal × List AnimVal :=
  (_unpack_data raw pT (trans_keys flag num_frames) DType.vec3,
   _unpack_data raw pR (rot_keys flag num_frames) DType.quat,
   _unpack_data raw pS (scale_keys flag num_frames) DType.vec3)

-- In-bounds decoding yields exactly the requested number of samples.
theorem unpack_data_length (raw : List Nat) (start_offset num_keys : Nat)
    (dt : DType) (h : start_offset + 12 * num_keys ≤ raw.length) :
    (_unpack_data raw start_offset num_keys dt).length = num_keys := by
  unfold _unpack_data
  rw [if_neg (by omega)]
  simp

/-- Claim C4: for every decoded rotation sample with stored components
(x, y, z), the reconstructed w equals sqrt(max(0, 1 - (x2+y2+z2))) whenever
x2+y2+z2 <= 1.001, and w = 0 otherwise; (0,0,0) yields w = 1, unit squared
magnitude yields w = 0, squared magnitude 1.0005 yields w = 0, and the sqrt
argument is never negative (so never NaN). -/
theorem claim_c4 (x y z : ℚ) :
    (x * x + y * y + z * z ≤ 1.001 →
      recon_w (x * x + y * y + z * z) =
        Real.sqrt (max 0 (1 - ((x * x + y * y + z * z : ℚ) : ℝ)))) ∧
    (1.001 < x * x + y * y + z * z → recon_w (x * x + y * y + z * z) = 0) ∧
    recon_w 0 = 1 ∧
    (x * x + y * y + z * z = 1 → recon_w (x * x + y * y + z * z) = 0) ∧
    recon_w 1.0005 = 0 ∧
    (0 : ℝ) ≤ 1 - ((min 1 (x * x + y * y + z * z) : ℚ) : ℝ) := by
  set m : ℚ := x * x + y * y + z * z with hm
  have harg : ∀ q : ℚ, ((1 : ℝ) - ((min 1 q : ℚ) : ℝ)) = max 0 (1 - (q : ℝ)) := by
    intro q
    rcases le_total q 1 with h | h
    · have h' : (q : ℝ) ≤ 1 := by exact_mod_cast h
      rw [min_eq_right h, max_eq_right (by linarith)]
    · have h' : (1 : ℝ) ≤ (q : ℝ) := by exact_mod_cast h
      rw [min_eq_left h, max_eq_left (by linarith)]
      push_cast
      ring
  refine ⟨?_, ?_, ?_, ?_, ?_, ?_⟩
  · intro h
    rw [recon_w, if_pos h, harg]
  · intro h
    rw [recon_w, if_neg (not_le.mpr h)]
  · rw [recon_w, if_pos (by norm_num)]
    norm_num
  · intro h
    rw [h, recon_w, if_pos (by norm_num)]
    norm_num
  · rw [recon_w, if_pos (by norm_num)]
    norm_num
  · have : (min 1 m : ℚ) ≤ 1 := min_le_left _ _
    have := (Rat.cast_le (K := ℝ)).mpr this
    push_cast at this ⊢
    linarith

theorem claim_c4_witness :
    ((1 : ℚ) * 1 + 0 * 0 + 0 * 0 ≤ 1.001 ∧
      recon_w ((1 : ℚ) * 1 + 0 * 0 + 0 * 0) =
        Real.sqrt (max 0 (1 - (((1 : ℚ) * 1 + 0 * 0 + 0 * 0 : ℚ) : ℝ)))) ∧
    recon_w 0 = 1 := by
  refine ⟨⟨by norm_num, (claim_c4 1 0 0).1 (by norm_num)⟩, (claim_c4 1 0 0).2.2.1⟩

/-- Claim C9: a sample block extending past the end of the buffer decodes to
an identity default (zero vector for vec3, identity quaternion for quat); in
the model the decoder is a total function, so no exception can be raised and
the remaining tracks of the clip are still decoded. -/
theorem claim_c9 (raw : List Nat) (start_offset num_keys : Nat)
    (h : raw.length < start_offset + 12 * num_keys) :
    _unpack_data raw start_offset num_keys DType.vec3 = [AnimVal.v3 0 0 0] ∧
    _unpack_data raw start_offset num_keys DType.quat = [AnimVal.qt 1 0 0 0] := by
  constructor <;> (unfold _unpack_data; rw [if_pos h])

theorem claim_c9_witness :
    ([] : List Nat).length < 0 + 12 * 1 ∧
    _unpack_data [] 0 1 DType.vec3 = [AnimVal.v3 0 0 0] ∧
    _unpack_data [] 0 1 DType.quat = [AnimVal.qt 1 0 0 0] :=
  ⟨by decide, (claim_c9 [] 0 1 (by decide)).1, (claim_c9 [] 0 1 (by decide)).2⟩

/-- Claim C7: with the sample blocks in bounds, the translation channel of a
track with flag f and clip frame count F is decoded with F samples exactly for
f in 0, 3, 4, 5 (else one constant sample), the rotation channel for
f in 0, 4, 6, and the scale channel for f in 0, 3. -/
theorem claim_c7 (flag num_frames : Nat) (raw : List Nat) (pT pR pS : Nat)
    (hT : pT + 12 * trans_keys flag num_frames ≤ raw.length)
    (hR : pR + 12 * rot_keys flag num_frames ≤ raw.length)
    (hS : pS + 12 * scale_keys flag num_frames ≤ raw.length) :
    ((parse_track_channels raw flag num_frames pT pR pS).1.length =
      if flag = 0 ∨ flag = 3 ∨ flag = 4 ∨ flag = 5 then num_frames else 1) ∧
    ((parse_track_channels raw flag num_frames pT pR pS).2.1.length =
      if flag = 0 ∨ flag = 4 ∨ flag = 6 then num_frames else 1) ∧
    ((parse_track_channels raw flag num_frames pT pR pS).2.2.length =
      if flag = 0 ∨ flag = 3 then num_frames else 1) := by
  unfold parse_track_channels
  refine ⟨?_, ?_, ?_⟩
  · rw [unpack_data_length _ _ _ _ hT, trans_keys]
    simp
  · rw [unpack_data_length _ _ _ _ hR, rot_keys]
    simp
  · rw [unpack_data_length _ _ _ _ hS, scale_keys]
    simp

theorem claim_c7_witness :
    (0 + 12 * trans_keys 3 2 ≤ (List.replicate 24 0).length) ∧
    ((parse_track_channels (List.replicate 24 0) 3 2 0 0 0).1.length = 2 ∧
     (parse_track_channels (List.replicate 24 0) 3 2 0 0 0).2.1.length = 1 ∧
     (parse_track_channels (List.replicate 24 0) 3 2 0 0 0).2.2.length = 2) := by
  refine ⟨by decide, ?_⟩
  have h := claim_c7 3 2 (List.replicate 24 0) 0 0 0 (by decide) (by decide) (by decide)
  refine ⟨?_, ?_, ?_⟩
  · rw [h.1]
    decide
  · rw [h.2.1]
    decide
  · rw [h.2.2]
    decide

-- ---------------------------------------------------------------------------
-- External data buffers (TLGReader.get_data_buffer)
-- ---------------------------------------------------------------------------

/-- The two buffer kinds requested by build_blender_scene. -/
inductive BufType
  | geometry
  | elems
deriving DecidableEq

/-- The dictionary returned by get_data_buffer: verts and uvs for a GEOMETRY
request, faces for an ELEMS request. -/
inductive GDB
  | geo (verts : List (ℚ × ℚ × ℚ)) (uvs : List (ℚ × ℚ))
  | el (faces : List (Nat × Nat × Nat))
deriving DecidableEq

/-- Signed 32-bit little-endian field at a byte offset. -/
def int32At (bs : List Nat) (off : Nat) : Int :=
  toInt32 (fieldLE bs off 4)

/-- TLGReader.get_data_buffer.  Header is struct <4shhii: a 4-byte magic
CDAT, two unused int16 fields, a stride and a length (signed 32-bit).  The
source reads records sequentially with f.read and struct.unpack; when the
file is too short, some unpack in the loop receives fewer bytes than its
format needs, raises struct.error, and the except handler returns None.  That
behaviour is modeled by the upfront bounds test on the full record region
(the loop consumes exactly stride bytes per record, so it errors out exactly
when the region 16 .. 16 + recordSize * n overruns the file). -/
def get_data_buffer (bytes : List Nat) (scale : ℚ) (btype : BufType) :
    Option GDB :=
  if bytes.length < 16 then none
  else if bytes.take 4 ≠ [67, 68, 65, 84] then none
  else
    let stride := int32At bytes 8
    let length := int32At bytes 12
    match btype with
    | BufType.geometry =>
      if stride = 32 then
        let n := (Int.fdiv length 32).toNat
        if bytes.length < 16 + 32 * n then none
        else
          some (GDB.geo
            ((List.range n).map fun i =>
              (decodeFloat32 (fieldLE bytes (16 + 32 * i) 4) * scale,
               decodeFloat32 (fieldLE bytes (16 + 32 * i + 4) 4) * scale,
               decodeFloat32 (fieldLE bytes (16 + 32 * i + 8) 4) * scale))
            ((List.range n).map fun i =>
              (decodeFloat32 (fieldLE bytes (16 + 32 * i + 24) 4),
               decodeFloat32 (fieldLE bytes (16 + 32 * i + 28) 4))))
      else none
    | BufType.elems =>
      if stride = 2 then
        let n := (Int.fdiv length 6).toNat
        if bytes.length < 16 + 6 * n then none
        else
          some (GDB.el ((List.range n).map fun i =>
            (fieldLE bytes (16 + 6 * i) 2,
             fieldLE bytes (16 + 6 * i + 4) 2,
             fieldLE bytes (16 + 6 * i + 2) 2)))
      else none

/-- The i-th stored triangle of an index buffer, in file order (three
unsigned 16-bit little-endian values). -/
def storedTri (bytes : List Nat) (i : Nat) : Nat × Nat × Nat :=
  (fieldLE bytes (16 + 6 * i) 2,
   fieldLE bytes (16 + 6 * i + 2) 2,
   fieldLE bytes (16 + 6 * i + 4) 2)

/-- The winding reversal applied on read: (a, b, c) becomes (a, c, b). -/
def revWinding (t : Nat × Nat × Nat) : Nat × Nat × Nat :=
  (t.1, t.2.2, t.2.1)

/-- Claim C6: the winding reversal maps (a, b, c) to (a, c, b), is an
involution, and every triangle emitted from an ELEMS buffer (stride 2) is the
reversal of the stored triple, applied exactly once. -/
theorem claim_c6 :
    (∀ t : Nat × Nat × Nat, revWinding (revWinding t) = t) ∧
    (∀ a b c : Nat, revWinding (a, b, c) = (a, c, b)) ∧
    (∀ (bytes : List Nat) (scale : ℚ) (faces : List (Nat × Nat × Nat)),
      get_data_buffer bytes scale BufType.elems = some (GDB.el faces) →
      faces = (List.range ((Int.fdiv (int32At bytes 12) 6).toNat)).map
        (fun i => revWinding (storedTri bytes i))) := by
  refine ⟨fun t => rfl, fun a b c => rfl, ?_⟩
  intro bytes scale faces h
  unfold get_data_buffer at h
  split_ifs at h with h1 h2
  dsimp only at h
  split_ifs at h with h3 h4
  · simp only [Option.some.injEq, GDB.el.injEq] at h
    rw [← h]
    exact List.map_congr_left (fun i _ => rfl)

theorem claim_c6_witness :
    get_data_buffer
      [67, 68, 65, 84, 0, 0, 0, 0, 2, 0, 0, 0, 6, 0, 0, 0, 1, 0, 2, 0, 3, 0]
      1 BufType.elems = some (GDB.el [(1, 3, 2)]) ∧
    [(1, 3, 2)] =
      (List.range ((Int.fdiv (int32At
        [67, 68, 65, 84, 0, 0, 0, 0, 2, 0, 0, 0, 6, 0, 0, 0, 1, 0, 2, 0, 3, 0]
        12) 6).toNat)).map
        (fun i => revWinding (storedTri
          [67, 68, 65, 84, 0, 0, 0, 0, 2, 0, 0, 0, 6, 0, 0, 0, 1, 0, 2, 0, 3, 0]
          i)) := by
  constructor
  · decide
  · exact claim_c6.2.2 _ 1 _ (by decide)

-- ---------------------------------------------------------------------------
-- Skin weights (TLGReader.parse_and_apply_weights)
-- ---------------------------------------------------------------------------

/-- One vertex_groups add call: vgroup.add([vert], w, ADD) on the group named
bone.  Blender accumulates ADD calls additively per vertex (accumWeight). -/
structure WCall where
  bone : List Nat
  vert : Nat
  w : ℚ
deriving DecidableEq

/-- The decoded i-th vertex record of a weights file: n unsigned 32-bit
influence indices followed by n binary32 weights (struct <4I4f or <8I8f). -/
def weightRecord (bytes : List Nat) (recOff n : Nat) : List Nat × List ℚ :=
  ((List.range n).map fun j => fieldLE bytes (recOff + 4 * j) 4,
   (List.range n).map fun j => decodeFloat32 (fieldLE bytes (recOff + 4 * n + 4 * j) 4))

/-- The inner influence loop of parse_and_apply_weights: slot j survives when
weights[j] > 1e-5 and indices[j] < len(bone_names_map); a surviving slot adds
weight weights[j] for the vertex to the group named by the indexed bone.  The
float literal 1e-5 is modeled by its decimal value mkRat 1 100000. -/
def emitCalls (idxs : List Nat) (ws : List ℚ) (vert : Nat)
    (boneNames : List (List Nat)) (numInfluences : Nat) : List WCall :=
  (List.range numInfluences).filterMap fun j =>
    if mkRat 1 100000 < ws.getD j 0 ∧ idxs.getD j 0 < boneNames.length then
      some ⟨boneNames.getD (idxs.getD j 0) [], vert, ws.getD j 0⟩
    else none

/-- The vertex loop of parse_and_apply_weights: starting at byte 16, one
record of stride bytes per vertex; the loop breaks as soon as the next record
would run past the end of the file (f.tell() + size > file_size). -/
def weightLoop (bytes : List Nat) (stride n : Nat)
    (boneNames : List (List Nat)) : Nat → Nat → List WCall
  | 0, _ => []
  | k + 1, i =>
    if bytes.length < 16 + stride * i + stride then []
    else
      let rec_ := weightRecord bytes (16 + stride * i) n
      emitCalls rec_.1 rec_.2 i boneNames n ++
        weightLoop bytes stride n boneNames k (i + 1)

/-- TLGReader.parse_and_apply_weights: infers
stride = (file_size - 16) // numVerts (Python floor division) and accepts
exactly stride 32 (4 influences) and stride 64 (8 influences); anything else
is rejected (None, no weights applied).  The result pairs the influence count
with the list of vertex-group add calls performed. -/
def parse_and_apply_weights (bytes : List Nat) (numVerts : Int)
    (boneNames : List (List Nat)) : Option (Nat × List WCall) :=
  if numVerts = 0 then none
  else
    let stride := Int.fdiv ((bytes.length : Int) - 16) numVerts
    if stride = 32 then
      some (4, weightLoop bytes 32 4 boneNames numVerts.toNat 0)
    else if stride = 64 then
      some (8, weightLoop bytes 64 8 boneNames numVerts.toNat 0)
    else none

/-- Total weight accumulated in the vertex group of bone b at vertex v by a
list of ADD calls (Blender VertexGroup.add with ADD sums contributions). -/
def accumWeight (calls : List WCall) (b : List Nat) (v : Nat) : ℚ :=
  (calls.map fun c => if c.bone = b ∧ c.vert = v then c.w else 0).sum

-- Accumulated ADD weight is additive under concatenation of call lists.
theorem accumWeight_append (l1 l2 : List WCall) (b : List Nat) (v : Nat) :
    accumWeight (l1 ++ l2) b v = accumWeight l1 b v + accumWeight l2 b v := by
  simp [accumWeight]

/-- Claim C5 (amended): with numVerts > 0, a weights file of size
16 + N * 32 is accepted with stride 32 and 4 influences, one of size
16 + N * 64 with stride 64 and 8 influences; a file is rejected exactly when
the floor quotient (file_size - 16) // N is neither 32 nor 64 — because of
the floor division, sizes that are not exactly 16 + N * 32 or 16 + N * 64 can
still be accepted (see the counterexample). -/
theorem claim_c5 (bytes : List Nat) (numVerts : Int)
    (names : List (List Nat)) (h : 0 < numVerts) :
    (((bytes.length : Int) = 16 + numVerts * 32 →
      ∃ calls, parse_and_apply_weights bytes numVerts names = some (4, calls))) ∧
    (((bytes.length : Int) = 16 + numVerts * 64 →
      ∃ calls, parse_and_apply_weights bytes numVerts names = some (8, calls))) ∧
    (parse_and_apply_weights bytes numVerts names = none ↔
      (Int.fdiv ((bytes.length : Int) - 16) numVerts ≠ 32 ∧
       Int.fdiv ((bytes.length : Int) - 16) numVerts ≠ 64)) := by
  have hne : numVerts ≠ 0 := by omega
  refine ⟨?_, ?_, ?_⟩
  · intro hl
    have h32 : Int.fdiv ((bytes.length : Int) - 16) numVerts = 32 := by
      rw [hl, show (16 + numVerts * 32 - 16 : Int) = numVerts * 32 by ring]
      exact Int.mul_fdiv_cancel_left 32 hne
    exact ⟨weightLoop bytes 32 4 names numVerts.toNat 0,
      by simp [parse_and_apply_weights, hne, h32]⟩
  · intro hl
    have h64 : Int.fdiv ((bytes.length : Int) - 16) numVerts = 64 := by
      rw [hl, show (16 + numVerts * 64 - 16 : Int) = numVerts * 64 by ring]
      exact Int.mul_fdiv_cancel_left 64 hne
    exact ⟨weightLoop bytes 64 8 names numVerts.toNat 0,
      by simp [parse_and_apply_weights, hne, h64]⟩
  · unfold parse_and_apply_weights
    rw [if_neg hne]
    by_cases h32 : Int.fdiv ((bytes.length : Int) - 16) numVerts = 32
    · simp [h32]
    · by_cases h64 : Int.fdiv ((bytes.length : Int) - 16) numVerts = 64
      · simp [h32, h64]
      · simp [h32, h64]

theorem claim_c5_counterexample :
    parse_and_apply_weights (List.replicate 81 (0 : Nat)) 2 [] = some (4, []) ∧
    (List.replicate 81 (0 : Nat)).length ≠ 16 + 2 * 32 ∧
    (List.replicate 81 (0 : Nat)).length ≠ 16 + 2 * 64 := by
  refine ⟨?_, by decide, by decide⟩
  decide

theorem claim_c5_witness :
    (0 : Int) < 1 ∧
    (((List.replicate 48 (0 : Nat)).length : Int) = 16 + 1 * 32) ∧
    ∃ calls, parse_and_apply_weights (List.replicate 48 0) 1 [] = some (4, calls) :=
  ⟨by decide, by decide,
    (claim_c5 (List.replicate 48 0) 1 [] (by decide)).1 (by decide)⟩

/-- Claim C8: a slot whose weight is at most the epsilon or whose bone index
is out of range of the cluster bone-name list contributes nothing; every
surviving slot adds its weight to the group of the indexed bone for that
vertex, and contributions accumulate additively (the total weight of bone b
at vertex v is the sum of the surviving slot weights naming b). -/
theorem claim_c8 (idxs : List Nat) (ws : List ℚ) (vert : Nat)
    (names : List (List Nat)) (n : Nat) (b : List Nat) (v : Nat) :
    (accumWeight (emitCalls idxs ws vert names n) b v =
      if v = vert then
        ∑ j ∈ Finset.range n,
          (if mkRat 1 100000 < ws.getD j 0 ∧ idxs.getD j 0 < names.length ∧
              names.getD (idxs.getD j 0) [] = b then ws.getD j 0 else 0)
      else 0) ∧
    (∀ c : WCall, c ∈ emitCalls idxs ws vert names n ↔
      ∃ j, j < n ∧ (mkRat 1 100000 < ws.getD j 0 ∧ idxs.getD j 0 < names.length) ∧
        c = ⟨names.getD (idxs.getD j 0) [], vert, ws.getD j 0⟩) := by
  constructor
  · induction n with
    | zero => simp [emitCalls, accumWeight]
    | succ k ih =>
      have step : emitCalls idxs ws vert names (k + 1) =
          emitCalls idxs ws vert names k ++
          (if mkRat 1 100000 < ws.getD k 0 ∧ idxs.getD k 0 < names.length then
            [⟨names.getD (idxs.getD k 0) [], vert, ws.getD k 0⟩] else []) := by
        unfold emitCalls
        rw [List.range_succ, List.filterMap_append]
        congr 1
        simp only [List.filterMap_cons, List.filterMap_nil]
        split_ifs with hc
        · rfl
        · rfl
      rw [step, accumWeight_append, ih, Finset.sum_range_succ]
      by_cases hc : mkRat 1 100000 < ws.getD k 0 ∧ idxs.getD k 0 < names.length
      · rw [if_pos hc]
        have hone : accumWeight [(⟨names.getD (idxs.getD k 0) [], vert, ws.getD k 0⟩ : WCall)] b v =
            if names.getD (idxs.getD k 0) [] = b ∧ vert = v then ws.getD k 0 else 0 := by
          simp [accumWeight]
        rw [hone]
        by_cases hv : v = vert
        · rw [if_pos hv, if_pos hv]
          by_cases hb : names.getD (idxs.getD k 0) [] = b
          · rw [if_pos ⟨hb, hv.symm⟩, if_pos ⟨hc.1, hc.2, hb⟩]
          · rw [if_neg (fun hh => hb hh.1), if_neg (fun hh => hb hh.2.2)]
        · rw [if_neg hv, if_neg hv, if_neg (fun hh => hv hh.2.symm)]
          simp
      · rw [if_neg hc]
        have hz : (if mkRat 1 100000 < ws.getD k 0 ∧ idxs.getD k 0 < names.length ∧
            names.getD (idxs.getD k 0) [] = b then ws.getD k 0 else 0) = 0 := by
          rw [if_neg]
          tauto
        rw [hz]
        simp [accumWeight]
  · intro c
    simp only [emitCalls, List.mem_filterMap, List.mem_range]
    constructor
    · rintro ⟨j, hj, hf⟩
      split_ifs at hf with hcond
      refine ⟨j, hj, hcond, ?_⟩
      simpa using hf.symm
    · rintro ⟨j, hj, hcond, rfl⟩
      exact ⟨j, hj, by rw [if_pos hcond]⟩

-- ---------------------------------------------------------------------------
-- File primitives (TLGReader.read_long / read_float / read_fixed_string)
-- ---------------------------------------------------------------------------

/-- The state of the open binary file: its bytes and the cursor position. -/
structure FileState where
  data : List Nat
  pos : Nat
deriving DecidableEq

/-- Python file.read(n): returns up to n bytes starting at the cursor and
advances the cursor by the number of bytes actually returned. -/
def readChunk (s : FileState) (n : Nat) : List Nat × FileState :=
  let bs := (s.data.drop s.pos).take n
  (bs, ⟨s.data, s.pos + bs.length⟩)

/-- Python file.seek(p) for a nonnegative target (a negative target raises
and is handled at each call site). -/
def seekTo (s : FileState) (p : Nat) : FileState :=
  ⟨s.data, p⟩

/-- Result of read_long: a scalar Option (count = 1) or a list (count > 1),
mirroring res[0] if count == 1 else list(res) and the two failure values
None and []. -/
inductive LongRes
  | single (v : Option Int)
  | multiple (vs : List Int)
deriving DecidableEq

/-- Result of read_float: a scalar (count = 1, failure value 0.0) or a list
(count > 1, failure value [0.0] * count). -/
inductive FloatRes
  | single (v : ℚ)
  | multiple (vs : List ℚ)
deriving DecidableEq

/-- TLGReader.read_long: reads 4 * count bytes; if fewer remain, returns
None (count = 1) or [] (count != 1); otherwise decodes count signed
little-endian 32-bit integers.  Once the byte count is checked, struct.unpack
cannot fail, so the except branch of the source is unreachable. -/
def read_long (count : Nat) (s : FileState) : LongRes × FileState :=
  let size := 4 * count
  let r := readChunk s size
  if r.1.length < size then
    ((if count = 1 then LongRes.single none else LongRes.multiple []), r.2)
  else
    let vals := (List.range count).map fun i => toInt32 (fieldLE r.1 (4 * i) 4)
    ((if count = 1 then LongRes.single vals.head? else LongRes.multiple vals), r.2)

/-- TLGReader.read_float: as read_long but decoding binary32 floats, with
failure values 0.0 and [0.0] * count. -/
def read_float (count : Nat) (s : FileState) : FloatRes × FileState :=
  let size := 4 * count
  let r := readChunk s size
  if r.1.length < size then
    ((if count = 1 then FloatRes.single 0
      else FloatRes.multiple (List.replicate count 0)), r.2)
  else
    let vals := (List.range count).map fun i => decodeFloat32 (fieldLE r.1 (4 * i) 4)
    ((if count = 1 then FloatRes.single (vals.headD 0) else FloatRes.multiple vals), r.2)

/-- read_long with the default count = 1, as called by the object parser.
The multiple branch is unreachable for count = 1. -/
def read_long1 (s : FileState) : Option Int × FileState :=
  match read_long 1 s with
  | (LongRes.single v, s') => (v, s')
  | (LongRes.multiple _, s') => (none, s')

/-- read_float with count = 1 (the rootPosition w skip). -/
def read_float1 (s : FileState) : ℚ × FileState :=
  match read_float 1 s with
  | (FloatRes.single v, s') => (v, s')
  | (FloatRes.multiple _, s') => (0, s')

/-- read_float with count > 1, which always returns a list. -/
def read_floatN (count : Nat) (s : FileState) : List ℚ × FileState :=
  match read_float count s with
  | (FloatRes.multiple vs, s') => (vs, s')
  | (FloatRes.single v, s') => ([v], s')

/-- TLGReader.read_fixed_string: an empty string for length <= 0, otherwise
up to length bytes, cut at the first NUL.  Strings are modeled as byte lists;
the utf-8 "ignore" decoding is the identity on them (every string compared by
the importer is plain ASCII). -/
def read_fixed_string (len : Int) (s : FileState) : List Nat × FileState :=
  if len ≤ 0 then ([], s)
  else
    let r := readChunk s len.toNat
    (r.1.takeWhile (fun b => b ≠ 0), r.2)

/-- Python list indexing with negative-index wrap-around: l[i] is l[i] for
0 <= i < len, l[len + i] for -len <= i < 0, and raises IndexError (none)
otherwise. -/
def pyIndex {α : Type} (l : List α) (i : Int) : Option α :=
  if 0 ≤ i ∧ i < l.length then l.get? i.toNat
  else if -(l.length : Int) ≤ i ∧ i < 0 then l.get? ((l.length : Int) + i).toNat
  else none

-- The byte window of element i of a successful read equals the window at
-- the absolute file offset.
theorem fieldLE_chunk (data : List Nat) (pos count i : Nat) (hi : i < count) :
    fieldLE ((data.drop pos).take (4 * count)) (4 * i) 4 =
      fieldLE data (pos + 4 * i) 4 := by
  unfold fieldLE
  congr 1
  rw [List.drop_take, List.drop_drop, List.take_take]
  congr 1
  omega

/-- Claim C10: the primitive readers are total (they are Lean functions, so
they cannot raise); with fewer than 4 * count bytes remaining, read_long
returns None (count = 1) or [] (count > 1) and read_float returns 0.0
(count = 1) or count zeros (count > 1); otherwise each returns the exact
little-endian decoded value or values taken at the cursor. -/
theorem claim_c10 (s : FileState) (count : Nat) (hcount : 0 < count) :
    (s.data.length < s.pos + 4 * count →
      ((read_long count s).1 =
        if count = 1 then LongRes.single none else LongRes.multiple []) ∧
      ((read_float count s).1 =
        if count = 1 then FloatRes.single 0
        else FloatRes.multiple (List.replicate count 0))) ∧
    (s.pos + 4 * count ≤ s.data.length →
      ((read_long count s).1 =
        if count = 1 then LongRes.single (some (toInt32 (fieldLE s.data s.pos 4)))
        else LongRes.multiple ((List.range count).map fun i =>
          toInt32 (fieldLE s.data (s.pos + 4 * i) 4))) ∧
      ((read_float count s).1 =
        if count = 1 then FloatRes.single (decodeFloat32 (fieldLE s.data s.pos 4))
        else FloatRes.multiple ((List.range count).map fun i =>
          decodeFloat32 (fieldLE s.data (s.pos + 4 * i) 4)))) := by
  have hlen : ((s.data.drop s.pos).take (4 * count)).length =
      min (4 * count) (s.data.length - s.pos) := by
    simp [List.length_take, List.length_drop]
  constructor
  · intro h
    have hfail : ((s.data.drop s.pos).take (4 * count)).length < 4 * count := by
      rw [hlen]
      omega
    constructor
    · simp only [read_long, readChunk]
      rw [if_pos hfail]
    · simp only [read_float, readChunk]
      rw [if_pos hfail]
  · intro h
    have hok : ¬ ((s.data.drop s.pos).take (4 * count)).length < 4 * count := by
      rw [hlen]
      omega
    constructor
    · simp only [read_long, readChunk]
      rw [if_neg hok]
      by_cases hc : count = 1
      · subst hc
        have h0 := fieldLE_chunk s.data s.pos 1 0 (by omega)
        norm_num at h0
        have hr : List.range 1 = [0] := rfl
        simp [hr, h0]
      · rw [if_neg hc, if_neg hc]
        exact congrArg LongRes.multiple
          (List.map_congr_left fun i hi =>
            congrArg toInt32 (fieldLE_chunk s.data s.pos count i (List.mem_range.mp hi)))
    · simp only [read_float, readChunk]
      rw [if_neg hok]
      by_cases hc : count = 1
      · subst hc
        have h0 := fieldLE_chunk s.data s.pos 1 0 (by omega)
        norm_num at h0
        have hr : List.range 1 = [0] := rfl
        simp [hr, h0]
      · rw [if_neg hc, if_neg hc]
        exact congrArg FloatRes.multiple
          (List.map_congr_left fun i hi =>
            congrArg decodeFloat32 (fieldLE_chunk s.data s.pos count i (List.mem_range.mp hi)))

theorem claim_c10_witness :
    ((⟨[1, 0, 0, 0, 2, 0, 0, 0], 0⟩ : FileState).pos + 4 * 2 ≤
      (⟨[1, 0, 0, 0, 2, 0, 0, 0], 0⟩ : FileState).data.length) ∧
    ((read_long 2 ⟨[1, 0, 0, 0, 2, 0, 0, 0], 0⟩).1 =
      if 2 = 1 then LongRes.single (some (toInt32 (fieldLE [1, 0, 0, 0, 2, 0, 0, 0] 0 4)))
      else LongRes.multiple ((List.range 2).map fun i =>
        toInt32 (fieldLE [1, 0, 0, 0, 2, 0, 0, 0] (0 + 4 * i) 4))) ∧
    ((read_float 2 ⟨[1, 0, 0, 0, 2, 0, 0, 0], 0⟩).1 =
      if 2 = 1 then FloatRes.single (decodeFloat32 (fieldLE [1, 0, 0, 0, 2, 0, 0, 0] 0 4))
      else FloatRes.multiple ((List.range 2).map fun i =>
        decodeFloat32 (fieldLE [1, 0, 0, 0, 2, 0, 0, 0] (0 + 4 * i) 4))) :=
  ⟨by decide,
   ((claim_c10 ⟨[1, 0, 0, 0, 2, 0, 0, 0], 0⟩ 2 (by decide)).2 (by decide)).1,
   ((claim_c10 ⟨[1, 0, 0, 0, 2, 0, 0, 0], 0⟩ 2 (by decide)).2 (by decide)).2⟩

-- ---------------------------------------------------------------------------
-- Object model (the Python data classes of import_tlg.py)
-- ---------------------------------------------------------------------------

/-- Byte list of an ASCII string literal of the source. -/
def ascii (s : String) : List Nat :=
  s.data.map Char.toNat

/-- DataStringRef: a (type, name) reference pair. -/
structure ObjRef where
  type : List Nat
  name : List Nat
deriving DecidableEq

/-- The Python class a parsed object was instantiated from (unknown stands
for the dynamically created type of get_obj_struct). -/
inductive ObjClass
  | sceneRoot
  | skeleton
  | bone
  | mesh
  | renderExt
  | skinCluster
  | geometryBuffer
  | materialDefinition
  | renderBatch
  | texture
  | unknown
deriving DecidableEq

/-- A parsed object.  Python gives each class only its own attributes and
setattr creates missing ones on the fly; this universal record carries every
attribute any parsed property can set, with the constructor defaults of the
classes that define them (rootPosition and rootRotation are the Bone
defaults).  No claim observes an attribute on a class that lacks it. -/
structure PObj where
  cls : ObjClass
  typeStr : List Nat
  name : List Nat := []
  parent : ObjRef := ⟨[], []⟩
  geometryBuffer : ObjRef := ⟨[], []⟩
  verts : ObjRef := ⟨[], []⟩
  elems : ObjRef := ⟨[], []⟩
  albedo : ObjRef := ⟨[], []⟩
  normal : ObjRef := ⟨[], []⟩
  emissive : ObjRef := ⟨[], []⟩
  materialDefinition : ObjRef := ⟨[], []⟩
  specular : ObjRef := ⟨[], []⟩
  children : List ObjRef := []
  extensions : List ObjRef := []
  batches : List ObjRef := []
  bones : List (List Nat) := []
  boneNames : List (List Nat) := []
  bindPoseMatrices : List (List ℚ) := []
  baseVertexIndex : Int := 0
  numVerts : Int := 0
  baseElemIndex : Int := 0
  numElems : Int := 0
  assetName : List Nat := []
  rootPosition : List ℚ := [0, 0, 0]
  rootRotation : List ℚ := [1, 0, 0, 0]
  start : Option Int := some 0
  numTris : Option Int := some 0
deriving DecidableEq

/-- TLGReader.get_obj_struct: class lookup by type string, defaulting to a
dynamically created type. -/
def get_obj_struct (t : List Nat) : ObjClass :=
  if t = ascii "SceneRoot" then ObjClass.sceneRoot
  else if t = ascii "Skeleton" then ObjClass.skeleton
  else if t = ascii "Bone" then ObjClass.bone
  else if t = ascii "Mesh" then ObjClass.mesh
  else if t = ascii "RenderExt" then ObjClass.renderExt
  else if t = ascii "SkinCluster" then ObjClass.skinCluster
  else if t = ascii "GeometryBuffer" then ObjClass.geometryBuffer
  else if t = ascii "MaterialDefinition" then ObjClass.materialDefinition
  else if t = ascii "RenderBatch" then ObjClass.renderBatch
  else if t = ascii "Texture" then ObjClass.texture
  else ObjClass.unknown

/-- A freshly constructed object of a class. -/
def mkObj (c : ObjClass) (t : List Nat) : PObj :=
  { cls := c, typeStr := t }

/-- The property names decoded as a single (type, name) reference. -/
def refProps : List (List Nat) :=
  [ascii "parent", ascii "geometryBuffer", ascii "verts", ascii "elems",
   ascii "albedo", ascii "normal", ascii "emissive",
   ascii "materialDefinition", ascii "specular"]

/-- The property names decoded as a counted list of references. -/
def listProps : List (List Nat) :=
  [ascii "children", ascii "extensions", ascii "batches"]

/-- The scalar integer property names. -/
def intProps : List (List Nat) :=
  [ascii "baseVertexIndex", ascii "numVerts", ascii "baseElemIndex",
   ascii "numElems"]

/-- setattr(obj, prop_type, ref) for the reference properties. -/
def setRefProp (obj : PObj) (pt : List Nat) (r : ObjRef) : PObj :=
  if pt = ascii "parent" then { obj with parent := r }
  else if pt = ascii "geometryBuffer" then { obj with geometryBuffer := r }
  else if pt = ascii "verts" then { obj with verts := r }
  else if pt = ascii "elems" then { obj with elems := r }
  else if pt = ascii "albedo" then { obj with albedo := r }
  else if pt = ascii "normal" then { obj with normal := r }
  else if pt = ascii "emissive" then { obj with emissive := r }
  else if pt = ascii "materialDefinition" then { obj with materialDefinition := r }
  else if pt = ascii "specular" then { obj with specular := r }
  else obj

/-- setattr(obj, prop_type, prop_list) for the list properties. -/
def setListProp (obj : PObj) (pt : List Nat) (items : List ObjRef) : PObj :=
  if pt = ascii "children" then { obj with children := items }
  else if pt = ascii "extensions" then { obj with extensions := items }
  else if pt = ascii "batches" then { obj with batches := items }
  else obj

/-- setattr(obj, prop_type, value) for the scalar integer properties. -/
def setIntProp (obj : PObj) (pt : List Nat) (v : Int) : PObj :=
  if pt = ascii "baseVertexIndex" then { obj with baseVertexIndex := v }
  else if pt = ascii "numVerts" then { obj with numVerts := v }
  else if pt = ascii "baseElemIndex" then { obj with baseElemIndex := v }
  else if pt = ascii "numElems" then { obj with numElems := v }
  else obj

-- ---------------------------------------------------------------------------
-- Property payload decoding (the body of the while loop of
-- TLGReader.parse_object_block)
-- ---------------------------------------------------------------------------

/-- Outcome of decoding one property payload inside the inner try: either a
while-level continue (one of the explicit continue statements at the
outermost loop level, which skips the end-of-iteration seek), or completion
(including every exception the inner except handler catches, after which the
seek still runs). -/
inductive PayloadOut
  | contW (s : FileState)
  | done (s : FileState) (obj : PObj)

/-- Result of one of the counted inner for loops: finished with the collected
items, or an exception (IndexError on a string lookup) that the property
except handler catches. -/
inductive LoopAcc (α : Type)
  | finished (s : FileState) (items : List α)
  | excCaught (s : FileState)

/-- The file state a loop stopped in. -/
def laState {α : Type} : LoopAcc α → FileState
  | LoopAcc.finished s _ => s
  | LoopAcc.excCaught s => s

/-- The item loop of the children / extensions / batches properties: each
iteration reads a (type, name) index pair; a failed read continues the inner
for loop (the item is dropped but the loop keeps running at the cursor), a
failed string lookup raises. -/
def itemsLoop (ds : List (List Nat)) : Nat → FileState → List ObjRef →
    LoopAcc ObjRef
  | 0, s, acc => LoopAcc.finished s acc
  | n + 1, s, acc =>
    let r1 := read_long1 s
    match r1.1 with
    | none => itemsLoop ds n r1.2 acc
    | some t1 =>
      match pyIndex ds t1 with
      | none => LoopAcc.excCaught r1.2
      | some ty =>
        let r2 := read_long1 r1.2
        match r2.1 with
        | none => itemsLoop ds n r2.2 acc
        | some t2 =>
          match pyIndex ds t2 with
          | none => LoopAcc.excCaught r2.2
          | some nm => itemsLoop ds n r2.2 (acc ++ [⟨ty, nm⟩])

/-- The bones loop: an ignored long, then a bone-name string index. -/
def bonesLoop (ds : List (List Nat)) : Nat → FileState → List (List Nat) →
    LoopAcc (List Nat)
  | 0, s, acc => LoopAcc.finished s acc
  | n + 1, s, acc =>
    let r0 := read_long1 s
    let r1 := read_long1 r0.2
    match r1.1 with
    | none => bonesLoop ds n r1.2 acc
    | some idx =>
      match pyIndex ds idx with
      | none => LoopAcc.excCaught r1.2
      | some nm => bonesLoop ds n r1.2 (acc ++ [nm])

/-- The boneNames loop: a name string index per item. -/
def namesLoop (ds : List (List Nat)) : Nat → FileState → List (List Nat) →
    LoopAcc (List Nat)
  | 0, s, acc => LoopAcc.finished s acc
  | n + 1, s, acc =>
    let r1 := read_long1 s
    match r1.1 with
    | none => namesLoop ds n r1.2 acc
    | some idx =>
      match pyIndex ds idx with
      | none => LoopAcc.excCaught r1.2
      | some nm => namesLoop ds n r1.2 (acc ++ [nm])

/-- The bindPoseMatrices loop: read_float(16) per matrix; read_float never
fails, so the loop always finishes. -/
def matricesLoop : Nat → FileState → List (List ℚ) →
    FileState × List (List ℚ)
  | 0, s, acc => (s, acc)
  | n + 1, s, acc =>
    let r := read_floatN 16 s
    matricesLoop n r.2 (acc ++ [r.1])

/-- The dispatch on prop_type inside the inner try of parse_object_block.
The source chains the recognized names with if / elif and then starts a
second if for "start" / "numTris"; since no name is in both chains the two
chains behave as one.  A lookup error (pyIndex none) raises IndexError, a
None count raises TypeError in range(); both are caught by the inner except
handler, so they complete with the object unchanged (done).  Only the
explicit while-level continue statements (truncated reads in a reference
payload or assetName) yield contW. -/
def payload (ds : List (List Nat)) (pt : List Nat) (obj : PObj)
    (s : FileState) : PayloadOut :=
  if pt ∈ refProps then
    let r1 := read_long1 s
    match r1.1 with
    | none => PayloadOut.contW r1.2
    | some t1 =>
      match pyIndex ds t1 with
      | none => PayloadOut.done r1.2 obj
      | some ty =>
        let r2 := read_long1 r1.2
        match r2.1 with
        | none => PayloadOut.contW r2.2
        | some t2 =>
          match pyIndex ds t2 with
          | none => PayloadOut.done r2.2 obj
          | some nm => PayloadOut.done r2.2 (setRefProp obj pt ⟨ty, nm⟩)
  else if pt ∈ listProps then
    let rc := read_long1 s
    match rc.1 with
    | none => PayloadOut.done rc.2 obj
    | some cnt =>
      match itemsLoop ds cnt.toNat rc.2 [] with
      | LoopAcc.excCaught s' => PayloadOut.done s' obj
      | LoopAcc.finished s' items => PayloadOut.done s' (setListProp obj pt items)
  else if pt = ascii "bones" then
    let rc := read_long1 s
    match rc.1 with
    | none => PayloadOut.done rc.2 obj
    | some cnt =>
      match bonesLoop ds cnt.toNat rc.2 [] with
      | LoopAcc.excCaught s' => PayloadOut.done s' obj
      | LoopAcc.finished s' items => PayloadOut.done s' { obj with bones := items }
  else if pt = ascii "boneNames" then
    let rc := read_long1 s
    match rc.1 with
    | none => PayloadOut.done rc.2 obj
    | some cnt =>
      match namesLoop ds cnt.toNat rc.2 [] with
      | LoopAcc.excCaught s' => PayloadOut.done s' obj
      | LoopAcc.finished s' items => PayloadOut.done s' { obj with boneNames := items }
  else if pt = ascii "bindPoseMatrices" then
    let rc := read_long1 s
    match rc.1 with
    | none => PayloadOut.done rc.2 obj
    | some cnt =>
      let r := matricesLoop cnt.toNat rc.2 []
      PayloadOut.done r.1 { obj with bindPoseMatrices := r.2 }
  else if pt ∈ intProps then
    let rv := read_long1 s
    match rv.1 with
    | none => PayloadOut.done rv.2 obj
    | some v => PayloadOut.done rv.2 (setIntProp obj pt v)
  else if pt = ascii "assetName" then
    let r := read_long1 s
    match r.1 with
    | none => PayloadOut.contW r.2
    | some idx =>
      match pyIndex ds idx with
      | none => PayloadOut.done r.2 obj
      | some nm => PayloadOut.done r.2 { obj with assetName := nm }
  else if pt = ascii "rootPosition" then
    let rp := read_floatN 3 s
    let rw := read_float1 rp.2
    PayloadOut.done rw.2 { obj with rootPosition := rp.1 }
  else if pt = ascii "rootRotation" then
    let rr := read_floatN 4 s
    PayloadOut.done rr.2 { obj with rootRotation := rr.1 }
  else if pt = ascii "start" then
    let rv := read_long1 s
    PayloadOut.done rv.2 { obj with start := rv.1 }
  else if pt = ascii "numTris" then
    let rv := read_long1 s
    PayloadOut.done rv.2 { obj with numTris := rv.1 }
  else
    PayloadOut.done s obj

-- ---------------------------------------------------------------------------
-- One property iteration and the property loop of parse_object_block
-- ---------------------------------------------------------------------------

/-- Outcome of one iteration of the while loop of parse_object_block:
  * brk: the name index was -1 (end of the property list);
  * cont: a while-level continue fired after prop_end was computed, so the
    seek to prop_end is skipped;
  * next: the iteration finished and the cursor was repositioned to prop_end;
  * errNoPE: an exception escaped the iteration before prop_end was assigned
    (name read failed with the index being None, name lookup raised, or the
    length read failed with prop_end = tell() + None raising TypeError);
  * errPE: the end-of-iteration seek itself raised (negative prop_end). -/
inductive PropOutcome
  | brk (s : FileState)
  | cont (s : FileState) (propEnd : Int)
  | next (s : FileState) (obj : PObj) (propEnd : Int)
  | errNoPE (s : FileState)
  | errPE (s : FileState) (propEnd : Int)
deriving DecidableEq

/-- One iteration of the property while loop: read the name index, stop on
-1, look the name up, read the 4-byte payload length, compute
prop_end = tell() + length, decode the payload under the inner try, and —
unless a while-level continue fired — seek to prop_end. -/
def propIter (ds : List (List Nat)) (obj : PObj) (s : FileState) :
    PropOutcome :=
  let rd := read_long1 s
  match rd.1 with
  | none => PropOutcome.errNoPE rd.2
  | some dsi =>
    if dsi = -1 then PropOutcome.brk rd.2
    else
      match pyIndex ds dsi with
      | none => PropOutcome.errNoPE rd.2
      | some pt =>
        let rl := read_long1 rd.2
        match rl.1 with
        | none => PropOutcome.errNoPE rl.2
        | some len =>
          let propEnd : Int := (rl.2.pos : Int) + len
          match payload ds pt obj rl.2 with
          | PayloadOut.contW s' => PropOutcome.cont s' propEnd
          | PayloadOut.done s' obj' =>
            if propEnd < 0 then PropOutcome.errPE s' propEnd
            else PropOutcome.next (seekTo s' propEnd.toNat) obj' propEnd

/-- Result of running the whole property loop:
  * finishedTwice: the loop ended with break; the source then appends the
    object inside the try and once more after the try / except block (the
    duplicated lines after the handler), so the object is appended twice;
  * finishedOnce: an exception escaped an iteration, the outer except
    handler re-seeked the last assigned prop_end, and only the append after
    the try / except block runs;
  * exc: the handler itself raised (prop_end unbound, NameError, or a
    negative re-seek), so the exception propagates to parse_file;
  * fuelOut: model fuel exhausted (never reached in the claims below). -/
inductive LoopOut
  | finishedTwice (s : FileState) (obj : PObj)
  | finishedOnce (s : FileState) (obj : PObj)
  | exc (s : FileState)
  | fuelOut
deriving DecidableEq

/-- The property while loop, carrying the last assigned prop_end for the
outer except handler. -/
def propLoop (ds : List (List Nat)) : Nat → PObj → FileState → Option Int →
    LoopOut
  | 0, _, _, _ => LoopOut.fuelOut
  | fuel + 1, obj, s, lastPE =>
    match propIter ds obj s with
    | PropOutcome.brk s' => LoopOut.finishedTwice s' obj
    | PropOutcome.cont s' pe => propLoop ds fuel obj s' (some pe)
    | PropOutcome.next s' obj' pe => propLoop ds fuel obj' s' (some pe)
    | PropOutcome.errNoPE s' =>
      match lastPE with
      | none => LoopOut.exc s'
      | some pe =>
        if pe < 0 then LoopOut.exc s'
        else LoopOut.finishedOnce (seekTo s' pe.toNat) obj
    | PropOutcome.errPE s' _ => LoopOut.exc s'

/-- Result of parse_object_block: normal return (with the updated object
array and map) or an exception that propagates into parse_file. -/
inductive BlockOut
  | ok (s : FileState) (arr : List PObj) (map : List (List Nat × PObj))
  | exc (s : FileState)
  | fuelOut
deriving DecidableEq

/-- Python dict assignment self.object_map[name] = obj on an
insertion-ordered association list. -/
def mapInsert (m : List (List Nat × PObj)) (k : List Nat) (v : PObj) :
    List (List Nat × PObj) :=
  if m.any (fun p => p.1 == k) then
    m.map (fun p => if p.1 == k then (k, v) else p)
  else m ++ [(k, v)]

/-- TLGReader.parse_object_block.  A None type or name index returns early
(no append).  A failed type or name string lookup raises IndexError; the
except handler then evaluates self.file.seek(prop_end) with prop_end never
assigned, so the handler itself raises and the exception propagates (exc).
On a normal break the object is appended twice — once at the end of the try
block and once by the duplicated lines after the except handler — and the
map entry is assigned twice with the same key and value. -/
def parse_object_block (fuel : Nat) (ds : List (List Nat)) (s : FileState)
    (arr : List PObj) (map : List (List Nat × PObj)) : BlockOut :=
  let r1 := read_long1 s
  match r1.1 with
  | none => BlockOut.ok r1.2 arr map
  | some ti =>
    match pyIndex ds ti with
    | none => BlockOut.exc r1.2
    | some typeStr =>
      let r2 := read_long1 r1.2
      match r2.1 with
      | none => BlockOut.ok r2.2 arr map
      | some ni =>
        match pyIndex ds ni with
        | none => BlockOut.exc r2.2
        | some nameStr =>
          let r3 := read_long1 r2.2
          let obj := { mkObj (get_obj_struct typeStr) typeStr with
                       name := nameStr }
          match propLoop ds fuel obj r3.2 none with
          | LoopOut.finishedTwice s' obj' =>
            BlockOut.ok s' (arr ++ [obj', obj'])
              (mapInsert (mapInsert map obj'.name obj') obj'.name obj')
          | LoopOut.finishedOnce s' obj' =>
            BlockOut.ok s' (arr ++ [obj']) (mapInsert map obj'.name obj')
          | LoopOut.exc s' => BlockOut.exc s'
          | LoopOut.fuelOut => BlockOut.fuelOut

-- ---------------------------------------------------------------------------
-- Whole-file parsing (TLGReader.parse_file)
-- ---------------------------------------------------------------------------

/-- The reader state shared across files: the string table of the file being
parsed and the accumulated object array and name-keyed object map. -/
structure ParserState where
  dataStrings : List (List Nat)
  objArr : List PObj
  objectMap : List (List Nat × PObj)
deriving DecidableEq

/-- The string-table loop: for each of string_count entries, read a 4-byte
length; when the read fails (None) the entry is skipped with continue and the
loop keeps going; otherwise the fixed string is read and appended. -/
def stringLoop : Nat → FileState → List (List Nat) →
    List (List Nat) × FileState
  | 0, s, acc => (acc, s)
  | n + 1, s, acc =>
    let rl := read_long1 s
    match rl.1 with
    | none => stringLoop n rl.2 acc
    | some len =>
      let rs := read_fixed_string len rl.2
      stringLoop n rs.2 (acc ++ [rs.1])

/-- The object-block loop of parse_file.  An exception escaping
parse_object_block is caught by the enclosing try of parse_file, which
returns with the state accumulated so far. -/
def objectsLoop (fuel : Nat) (ds : List (List Nat)) : Nat → FileState →
    List PObj → List (List Nat × PObj) → Option ParserState
  | 0, _, arr, map => some ⟨ds, arr, map⟩
  | n + 1, s, arr, map =>
    match parse_object_block fuel ds s arr map with
    | BlockOut.ok s' arr' map' => objectsLoop fuel ds n s' arr' map'
    | BlockOut.exc _ => some ⟨ds, arr, map⟩
    | BlockOut.fuelOut => none

/-- TLGReader.parse_file on one file: read the 7-long header (an empty list
is falsy, so a short file returns at once), seek to the string buffer, read
the string count (None returns), reset and fill the string table, seek to the
data offset and parse data_count object blocks.  A negative seek target
raises and is caught by the enclosing except, returning the state reached.
The result is none only when the model fuel runs out. -/
def parse_file (fuel : Nat) (st : ParserState) (file : List Nat) :
    Option ParserState :=
  let s0 : FileState := ⟨file, 0⟩
  match read_long 7 s0 with
  | (LongRes.multiple [], _) => some st
  | (LongRes.multiple [_, _, dataOffset, sbo, _, _, dataCount], s1) =>
    if sbo < 0 then some st
    else
      let s2 := seekTo s1 sbo.toNat
      let rc := read_long1 s2
      match rc.1 with
      | none => some st
      | some stringCount =>
        let rds := stringLoop stringCount.toNat rc.2 []
        if dataOffset < 0 then some { st with dataStrings := rds.1 }
        else
          objectsLoop fuel rds.1 dataCount.toNat
            (seekTo rds.2 dataOffset.toNat) st.objArr st.objectMap
  | (_, _) => some st

-- ---------------------------------------------------------------------------
-- Scene building (TLGReader.build_blender_scene)
-- ---------------------------------------------------------------------------

/-- An artifact emitted into the Blender scene: an armature built by
build_skeleton or a mesh object built by build_meshes. -/
inductive SceneOut
  | skel (name : List Nat)
  | mesh (name : List Nat)
deriving DecidableEq

/-- dict.get on the object map. -/
def lookupMap (m : List (List Nat × PObj)) (k : List Nat) : Option PObj :=
  (m.find? (fun p => p.1 == k)).map Prod.snd

/-- TLGReader.build_skeleton emits an armature unless the bone list is
empty. -/
def build_skeleton (skel : PObj) : List SceneOut :=
  if skel.bones = [] then [] else [SceneOut.skel skel.name]

/-- TLGReader.build_meshes: the mesh object is created only when the vertex
range and the face range both fit the global buffers and are nonempty. -/
def build_meshes (re : PObj) (vb : List (ℚ × ℚ × ℚ))
    (fb : List (Nat × Nat × Nat)) : List SceneOut :=
  if re.baseVertexIndex + re.numVerts > (vb.length : Int) ∨ re.numVerts = 0 then []
  else
    let meshFaceStart := Int.fdiv re.baseElemIndex 3
    let numFaces := Int.fdiv re.numElems 3
    if meshFaceStart + numFaces > (fb.length : Int) ∨ numFaces = 0 then []
    else [SceneOut.mesh re.name]

/-- TLGReader.build_blender_scene: none when no SceneRoot exists; otherwise
the artifacts emitted while walking the children of the first SceneRoot.
The external .data files referenced by the geometry buffer are passed in as
optional byte lists (they are separate files on disk); they are only decoded
when the SceneRoot carries a geometryBuffer name that resolves in the object
map.  Empty vertex or face lists are falsy in Python, so meshes are only
built when both buffers are nonempty. -/
def build_blender_scene (st : ParserState) (scale : ℚ)
    (geomFile elemFile : Option (List Nat)) : Option (List SceneOut) :=
  match st.objArr.find? (fun o => o.cls == ObjClass.sceneRoot) with
  | none => none
  | some root =>
    let bufs : Option (List (ℚ × ℚ × ℚ)) × Option (List (Nat × Nat × Nat)) :=
      if root.geometryBuffer.name ≠ [] then
        match lookupMap st.objectMap root.geometryBuffer.name with
        | some _gbuf =>
          let g := match geomFile with
            | some b => get_data_buffer b scale BufType.geometry
            | none => none
          let e := match elemFile with
            | some b => get_data_buffer b scale BufType.elems
            | none => none
          (match g with
           | some (GDB.geo v _) => some v
           | _ => none,
           match e with
           | some (GDB.el f) => some f
           | _ => none)
        | none => (none, none)
      else (none, none)
    some (root.children.foldl (fun acc ref =>
      match lookupMap st.objectMap ref.name with
      | none => acc
      | some obj =>
        if obj.cls = ObjClass.skeleton then acc ++ build_skeleton obj
        else if obj.cls = ObjClass.mesh ∧ obj.extensions ≠ [] then
          if (ascii "_fresnel") <:+: obj.name ∨ (ascii "_fur") <:+: obj.name then
            acc
          else
            match obj.extensions with
            | [] => acc
            | ext :: _ =>
              match lookupMap st.objectMap ext.name with
              | none => acc
              | some re =>
                match bufs.1, bufs.2 with
                | some vb, some fb =>
                  if vb ≠ [] ∧ fb ≠ [] then acc ++ build_meshes re vb fb
                  else acc
                | _, _ => acc
        else acc) [])

-- ---------------------------------------------------------------------------
-- Facts about the primitives used by the parser proofs
-- ---------------------------------------------------------------------------

-- read_long with count 1 in closed form.
theorem read_long_one (s : FileState) :
    read_long 1 s =
      (if s.data.length < s.pos + 4 then LongRes.single none
       else LongRes.single (some (toInt32 (fieldLE s.data s.pos 4))),
       (readChunk s 4).2) := by
  unfold read_long readChunk
  dsimp only
  have hlen : ((s.data.drop s.pos).take (4 * 1)).length =
      min (4 * 1) (s.data.length - s.pos) := by
    simp
  by_cases h : s.data.length < s.pos + 4
  · have hc : ((s.data.drop s.pos).take (4 * 1)).length < 4 * 1 := by
      rw [hlen]
      omega
    rw [if_pos hc, if_pos h]
    simp
  · have hc : ¬ ((s.data.drop s.pos).take (4 * 1)).length < 4 * 1 := by
      rw [hlen]
      omega
    rw [if_neg hc, if_neg h]
    have h0 := fieldLE_chunk s.data s.pos 1 0 (by omega)
    norm_num at h0
    have hr : List.range 1 = [0] := rfl
    simp [hr, h0]

-- read_long1 in closed form.
theorem read_long1_eq (s : FileState) :
    read_long1 s =
      ((if s.data.length < s.pos + 4 then none
        else some (toInt32 (fieldLE s.data s.pos 4))), (readChunk s 4).2) := by
  unfold read_long1
  rw [read_long_one]
  by_cases h : s.data.length < s.pos + 4
  · rw [if_pos h, if_pos h]
  · rw [if_neg h, if_neg h]

theorem read_long1_data (s : FileState) : (read_long1 s).2.data = s.data := by
  rw [read_long1_eq]
  rfl

theorem read_long1_none_len (s : FileState) (h : (read_long1 s).1 = none) :
    s.data.length < s.pos + 4 := by
  rw [read_long1_eq] at h
  by_cases hc : s.data.length < s.pos + 4
  · exact hc
  · rw [if_neg hc] at h
    simp at h

theorem read_long1_some_pos (s : FileState) (v : Int)
    (h : (read_long1 s).1 = some v) :
    (read_long1 s).2.pos = s.pos + 4 ∧ s.pos + 4 ≤ s.data.length := by
  rw [read_long1_eq] at h ⊢
  by_cases hc : s.data.length < s.pos + 4
  · rw [if_pos hc] at h
    simp at h
  · refine ⟨?_, by omega⟩
    simp only [readChunk, List.length_take, List.length_drop]
    omega

-- read_float leaves the same final state in both branches.
theorem read_float_state (count : Nat) (s : FileState) :
    (read_float count s).2 = (readChunk s (4 * count)).2 := by
  unfold read_float
  dsimp only
  split <;> rfl

theorem read_floatN_data (count : Nat) (s : FileState) :
    (read_floatN count s).2.data = s.data := by
  unfold read_floatN
  rcases hr : read_float count s with ⟨res, s2⟩
  have h2 : s2 = (readChunk s (4 * count)).2 := by
    have := read_float_state count s
    rw [hr] at this
    exact this
  have hs : s2.data = s.data := by
    rw [h2]
    rfl
  cases res <;> exact hs

theorem read_float1_data (s : FileState) : (read_float1 s).2.data = s.data := by
  unfold read_float1
  rcases hr : read_float 1 s with ⟨res, s2⟩
  have h2 : s2 = (readChunk s (4 * 1)).2 := by
    have := read_float_state 1 s
    rw [hr] at this
    exact this
  have hs : s2.data = s.data := by
    rw [h2]
    rfl
  cases res <;> exact hs

-- The counted inner loops never change the file bytes.
theorem itemsLoop_data (ds : List (List Nat)) :
    ∀ (n : Nat) (s : FileState) (acc : List ObjRef),
      (laState (itemsLoop ds n s acc)).data = s.data := by
  intro n
  induction n with
  | zero => intro s acc; rfl
  | succ k ih =>
    intro s acc
    unfold itemsLoop
    rcases hr1 : read_long1 s with ⟨o1, s1⟩
    have hd1 : s1.data = s.data := by
      have := read_long1_data s
      rw [hr1] at this
      exact this
    cases o1 with
    | none => rw [ih s1 acc, hd1]
    | some t1 =>
      dsimp only
      cases pyIndex ds t1 with
      | none =>
        dsimp only [laState]
        exact hd1
      | some ty =>
        dsimp only
        rcases hr2 : read_long1 s1 with ⟨o2, s2⟩
        have hd2 : s2.data = s1.data := by
          have := read_long1_data s1
          rw [hr2] at this
          exact this
        cases o2 with
        | none => rw [ih s2 acc, hd2, hd1]
        | some t2 =>
          dsimp only
          cases pyIndex ds t2 with
          | none =>
            dsimp only [laState]
            rw [hd2, hd1]
          | some nm => rw [ih s2 _, hd2, hd1]

theorem bonesLoop_data (ds : List (List Nat)) :
    ∀ (n : Nat) (s : FileState) (acc : List (List Nat)),
      (laState (bonesLoop ds n s acc)).data = s.data := by
  intro n
  induction n with
  | zero => intro s acc; rfl
  | succ k ih =>
    intro s acc
    unfold bonesLoop
    rcases hr0 : read_long1 s with ⟨o0, s0⟩
    have hd0 : s0.data = s.data := by
      have := read_long1_data s
      rw [hr0] at this
      exact this
    dsimp only
    rcases hr1 : read_long1 s0 with ⟨o1, s1⟩
    have hd1 : s1.data = s0.data := by
      have := read_long1_data s0
      rw [hr1] at this
      exact this
    cases o1 with
    | none => rw [ih s1 acc, hd1, hd0]
    | some idx =>
      dsimp only
      cases pyIndex ds idx with
      | none =>
        dsimp only [laState]
        rw [hd1, hd0]
      | some nm => rw [ih s1 _, hd1, hd0]

theorem namesLoop_data (ds : List (List Nat)) :
    ∀ (n : Nat) (s : FileState) (acc : List (List Nat)),
      (laState (namesLoop ds n s acc)).data = s.data := by
  intro n
  induction n with
  | zero => intro s acc; rfl
  | succ k ih =>
    intro s acc
    unfold namesLoop
    rcases hr1 : read_long1 s with ⟨o1, s1⟩
    have hd1 : s1.data = s.data := by
      have := read_long1_data s
      rw [hr1] at this
      exact this
    cases o1 with
    | none => rw [ih s1 acc, hd1]
    | some idx =>
      dsimp only
      cases pyIndex ds idx with
      | none =>
        dsimp only [laState]
        exact hd1
      | some nm => rw [ih s1 _, hd1]

theorem matricesLoop_data :
    ∀ (n : Nat) (s : FileState) (acc : List (List ℚ)),
      (matricesLoop n s acc).1.data = s.data := by
  intro n
  induction n with
  | zero => intro s acc; rfl
  | succ k ih =>
    intro s acc
    unfold matricesLoop
    dsimp only
    rw [ih _ _, read_floatN_data]

-- Every property payload either completes (done, possibly after a caught
-- exception) without touching the file bytes, or fires a while-level
-- continue; the latter happens only for a reference property or assetName
-- whose payload read hit the end of the file.
theorem payload_cases (ds : List (List Nat)) (pt : List Nat) (obj : PObj)
    (s : FileState) :
    (∃ s' obj', payload ds pt obj s = PayloadOut.done s' obj' ∧
      s'.data = s.data) ∨
    (∃ s', payload ds pt obj s = PayloadOut.contW s' ∧ s'.data = s.data ∧
      (pt ∈ refProps ∨ pt = ascii "assetName") ∧
      s.data.length < s.pos + 8) := by
  unfold payload
  by_cases hrf : pt ∈ refProps
  · rw [if_pos hrf]
    rcases hr1 : read_long1 s with ⟨o1, s1⟩
    have hd1 : s1.data = s.data := by
      have := read_long1_data s
      rw [hr1] at this
      exact this
    cases o1 with
    | none =>
      right
      refine ⟨s1, rfl, hd1, Or.inl hrf, ?_⟩
      have hn : (read_long1 s).1 = none := by rw [hr1]
      have := read_long1_none_len s hn
      omega
    | some t1 =>
      dsimp only
      cases pyIndex ds t1 with
      | none => exact Or.inl ⟨s1, obj, rfl, hd1⟩
      | some ty =>
        dsimp only
        rcases hr2 : read_long1 s1 with ⟨o2, s2⟩
        have hd2 : s2.data = s1.data := by
          have := read_long1_data s1
          rw [hr2] at this
          exact this
        cases o2 with
        | none =>
          right
          refine ⟨s2, rfl, hd2.trans hd1, Or.inl hrf, ?_⟩
          have hs1 : (read_long1 s).2.pos = s.pos + 4 ∧ s.pos + 4 ≤ s.data.length := by
            apply read_long1_some_pos s t1
            rw [hr1]
          have hp1 : s1.pos = s.pos + 4 := by
            have := hs1.1
            rw [hr1] at this
            exact this
          have hn2 : (read_long1 s1).1 = none := by rw [hr2]
          have := read_long1_none_len s1 hn2
          rw [hd1, hp1] at this
          omega
        | some t2 =>
          dsimp only
          cases pyIndex ds t2 with
          | none => exact Or.inl ⟨s2, obj, rfl, hd2.trans hd1⟩
          | some nm => exact Or.inl ⟨s2, _, rfl, hd2.trans hd1⟩
  rw [if_neg hrf]
  by_cases hlp : pt ∈ listProps
  · rw [if_pos hlp]
    rcases hrc : read_long1 s with ⟨oc, sc⟩
    have hdc : sc.data = s.data := by
      have := read_long1_data s
      rw [hrc] at this
      exact this
    cases oc with
    | none => exact Or.inl ⟨sc, obj, rfl, hdc⟩
    | some cnt =>
      dsimp only
      have hld := itemsLoop_data ds cnt.toNat sc []
      cases hil : itemsLoop ds cnt.toNat sc [] with
      | finished s' items =>
        rw [hil] at hld
        exact Or.inl ⟨s', _, rfl, hld.trans hdc⟩
      | excCaught s' =>
        rw [hil] at hld
        exact Or.inl ⟨s', obj, rfl, hld.trans hdc⟩
  rw [if_neg hlp]
  by_cases hbn : pt = ascii "bones"
  · rw [if_pos hbn]
    rcases hrc : read_long1 s with ⟨oc, sc⟩
    have hdc : sc.data = s.data := by
      have := read_long1_data s
      rw [hrc] at this
      exact this
    cases oc with
    | none => exact Or.inl ⟨sc, obj, rfl, hdc⟩
    | some cnt =>
      dsimp only
      have hld := bonesLoop_data ds cnt.toNat sc []
      cases hil : bonesLoop ds cnt.toNat sc [] with
      | finished s' items =>
        rw [hil] at hld
        exact Or.inl ⟨s', _, rfl, hld.trans hdc⟩
      | excCaught s' =>
        rw [hil] at hld
        exact Or.inl ⟨s', obj, rfl, hld.trans hdc⟩
  rw [if_neg hbn]
  by_cases hbnn : pt = ascii "boneNames"
  · rw [if_pos hbnn]
    rcases hrc : read_long1 s with ⟨oc, sc⟩
    have hdc : sc.data = s.data := by
      have := read_long1_data s
      rw [hrc] at this
      exact this
    cases oc with
    | none => exact Or.inl ⟨sc, obj, rfl, hdc⟩
    | some cnt =>
      dsimp only
      have hld := namesLoop_data ds cnt.toNat sc []
      cases hil : namesLoop ds cnt.toNat sc [] with
      | finished s' items =>
        rw [hil] at hld
        exact Or.inl ⟨s', _, rfl, hld.trans hdc⟩
      | excCaught s' =>
        rw [hil] at hld
        exact Or.inl ⟨s', obj, rfl, hld.trans hdc⟩
  rw [if_neg hbnn]
  by_cases hbp : pt = ascii "bindPoseMatrices"
  · rw [if_pos hbp]
    rcases hrc : read_long1 s with ⟨oc, sc⟩
    have hdc : sc.data = s.data := by
      have := read_long1_data s
      rw [hrc] at this
      exact this
    cases oc with
    | none => exact Or.inl ⟨sc, obj, rfl, hdc⟩
    | some cnt =>
      dsimp only
      have hld := matricesLoop_data cnt.toNat sc []
      exact Or.inl ⟨_, _, rfl, hld.trans hdc⟩
  rw [if_neg hbp]
  by_cases hip : pt ∈ intProps
  · rw [if_pos hip]
    rcases hrv : read_long1 s with ⟨ov, sv⟩
    have hdv : sv.data = s.data := by
      have := read_long1_data s
      rw [hrv] at this
      exact this
    cases ov with
    | none => exact Or.inl ⟨sv, obj, rfl, hdv⟩
    | some v => exact Or.inl ⟨sv, _, rfl, hdv⟩
  rw [if_neg hip]
  by_cases han : pt = ascii "assetName"
  · rw [if_pos han]
    rcases hr1 : read_long1 s with ⟨o1, s1⟩
    have hd1 : s1.data = s.data := by
      have := read_long1_data s
      rw [hr1] at this
      exact this
    cases o1 with
    | none =>
      right
      refine ⟨s1, rfl, hd1, Or.inr han, ?_⟩
      have hn : (read_long1 s).1 = none := by rw [hr1]
      have := read_long1_none_len s hn
      omega
    | some idx =>
      dsimp only
      cases pyIndex ds idx with
      | none => exact Or.inl ⟨s1, obj, rfl, hd1⟩
      | some nm => exact Or.inl ⟨s1, _, rfl, hd1⟩
  rw [if_neg han]
  by_cases hrp : pt = ascii "rootPosition"
  · rw [if_pos hrp]
    refine Or.inl ⟨_, _, rfl, ?_⟩
    rw [read_float1_data, read_floatN_data]
  rw [if_neg hrp]
  by_cases hrr : pt = ascii "rootRotation"
  · rw [if_pos hrr]
    refine Or.inl ⟨_, _, rfl, ?_⟩
    rw [read_floatN_data]
  rw [if_neg hrr]
  by_cases hst : pt = ascii "start"
  · rw [if_pos hst]
    refine Or.inl ⟨_, _, rfl, ?_⟩
    rw [read_long1_data]
  rw [if_neg hst]
  by_cases hnt : pt = ascii "numTris"
  · rw [if_pos hnt]
    refine Or.inl ⟨_, _, rfl, ?_⟩
    rw [read_long1_data]
  rw [if_neg hnt]
  exact Or.inl ⟨s, obj, rfl, rfl⟩

-- Concrete inputs for the C1 theorems.
def c1ds : List (List Nat) := [ascii "parent"]

/-- Little-endian two-complement encoding of a 32-bit value. -/
def i32enc (n : Int) : List Nat :=
  let m := (n % 4294967296).toNat
  [m % 256, m / 256 % 256, m / 65536 % 256, m / 16777216 % 256]

/-- A property record declaring name index 0 and length 100 with nothing
after it: the payload read of the reference property hits end of file. -/
def c1data : List Nat := i32enc 0 ++ i32enc 100

/-- Claim C1 counterexample: for this property the name index (0, the
recognized name parent) and the declared length (100, nonnegative) are both
read successfully, yet processing ends in a while-level continue with the
cursor at byte 8 — the position the truncated payload read stopped at — and
not at property_start + 100 = 108, and the next name index is read right
there. -/
theorem claim_c1_counterexample :
    (read_long1 ⟨c1data, 0⟩).1 = some 0 ∧
    pyIndex c1ds 0 = some (ascii "parent") ∧
    (read_long1 ⟨c1data, 4⟩).1 = some 100 ∧
    (0 : Int) ≤ 100 ∧
    propIter c1ds (mkObj ObjClass.unknown []) ⟨c1data, 0⟩ =
      PropOutcome.cont ⟨c1data, 8⟩ 108 ∧
    (8 : Nat) ≠ (108 : Int).toNat := by
  refine ⟨by decide, by decide, by decide, by decide, by decide, by decide⟩

/-- Claim C1 (amended): when the name index and the declared length len >= 0
of a property are read successfully, either the iteration completes and the
cursor is repositioned exactly to property_start + len before the next
property is read, or — only for a two-field reference property or assetName
whose payload read hit the end of the file (fewer than 8 payload bytes
remain) — the loop continues without repositioning the cursor. -/
theorem claim_c1 (ds : List (List Nat)) (obj : PObj) (data : List Nat)
    (p : Nat) (idx len : Int) (pt : List Nat) (s1 s2 : FileState)
    (h1 : read_long1 ⟨data, p⟩ = (some idx, s1))
    (h2 : idx ≠ -1)
    (h3 : pyIndex ds idx = some pt)
    (h4 : read_long1 s1 = (some len, s2))
    (h5 : 0 ≤ len) :
    (∃ obj2, propIter ds obj ⟨data, p⟩ =
      PropOutcome.next ⟨data, ((s2.pos : Int) + len).toNat⟩ obj2
        ((s2.pos : Int) + len)) ∨
    (∃ s3, propIter ds obj ⟨data, p⟩ =
      PropOutcome.cont s3 ((s2.pos : Int) + len) ∧
      (pt ∈ refProps ∨ pt = ascii "assetName") ∧
      data.length < s2.pos + 8) := by
  have hs1d : s1.data = data := by
    have := read_long1_data ⟨data, p⟩
    rw [h1] at this
    exact this
  have hs2d : s2.data = s1.data := by
    have := read_long1_data s1
    rw [h4] at this
    exact this
  have hpe : ¬ ((s2.pos : Int) + len < 0) := by omega
  unfold propIter
  rw [h1]
  dsimp only
  rw [if_neg h2, h3]
  dsimp only
  rw [h4]
  dsimp only
  rcases payload_cases ds pt obj s2 with ⟨s', obj', hp, hdp⟩ |
    ⟨s', hp, hdp, hmem, hb⟩
  · left
    rw [hp]
    dsimp only
    rw [if_neg hpe]
    refine ⟨obj', ?_⟩
    have hsd : s'.data = data := by rw [hdp, hs2d, hs1d]
    unfold seekTo
    rw [hsd]
  · right
    refine ⟨s', ?_, hmem, ?_⟩
    · rw [hp]
    · rw [hs2d, hs1d] at hb
      exact hb

def c1wds : List (List Nat) := [[65]]

def c1wdata : List Nat := i32enc 0 ++ i32enc 5

theorem claim_c1_witness :
    (∃ obj2, propIter c1wds (mkObj ObjClass.unknown []) ⟨c1wdata, 0⟩ =
      PropOutcome.next
        ⟨c1wdata, (((⟨c1wdata, 8⟩ : FileState).pos : Int) + 5).toNat⟩ obj2
        (((⟨c1wdata, 8⟩ : FileState).pos : Int) + 5)) ∨
    (∃ s3, propIter c1wds (mkObj ObjClass.unknown []) ⟨c1wdata, 0⟩ =
      PropOutcome.cont s3 (((⟨c1wdata, 8⟩ : FileState).pos : Int) + 5) ∧
      ([65] ∈ refProps ∨ [65] = ascii "assetName") ∧
      c1wdata.length < (⟨c1wdata, 8⟩ : FileState).pos + 8) :=
  claim_c1 c1wds (mkObj ObjClass.unknown []) c1wdata 0 0 5 [65]
    ⟨c1wdata, 4⟩ ⟨c1wdata, 8⟩ (by decide) (by decide) (by decide)
    (by decide) (by decide)

-- parse_object_block only appends to the object array.
theorem parse_object_block_mono (fuel : Nat) (ds : List (List Nat))
    (s : FileState) (arr : List PObj) (map : List (List Nat × PObj))
    (s' : FileState) (arr' : List PObj) (map' : List (List Nat × PObj))
    (h : parse_object_block fuel ds s arr map = BlockOut.ok s' arr' map') :
    ∃ t, arr' = arr ++ t := by
  unfold parse_object_block at h
  dsimp only at h
  repeat' split at h
  all_goals first
    | (injection h with hs ha hm
       subst ha
       first
        | exact ⟨_, rfl⟩
        | (refine ⟨[], ?_⟩
           simp))
    | exact absurd h (by simp)

-- The object loop of parse_file only appends to the object array.
theorem objectsLoop_mono (fuel : Nat) (ds : List (List Nat)) :
    ∀ (n : Nat) (s : FileState) (arr : List PObj)
      (map : List (List Nat × PObj)) (st' : ParserState),
      objectsLoop fuel ds n s arr map = some st' →
      ∃ t, st'.objArr = arr ++ t := by
  intro n
  induction n with
  | zero =>
    intro s arr map st' h
    unfold objectsLoop at h
    cases h
    exact ⟨[], by simp⟩
  | succ k ih =>
    intro s arr map st' h
    unfold objectsLoop at h
    rcases hpb : parse_object_block fuel ds s arr map with ⟨s1, arr1, map1⟩ | s1 | _
    · rw [hpb] at h
      obtain ⟨t1, ht1⟩ := parse_object_block_mono fuel ds s arr map s1 arr1 map1 hpb
      obtain ⟨t2, ht2⟩ := ih s1 arr1 map1 st' h
      exact ⟨t1 ++ t2, by rw [ht2, ht1, List.append_assoc]⟩
    · rw [hpb] at h
      cases h
      exact ⟨[], by simp⟩
    · rw [hpb] at h
      cases h

-- parse_file never removes or replaces objects merged from earlier files.
theorem parse_file_mono (fuel : Nat) (st : ParserState) (file : List Nat)
    (st' : ParserState) (h : parse_file fuel st file = some st') :
    ∃ t, st'.objArr = st.objArr ++ t := by
  unfold parse_file at h
  dsimp only at h
  repeat' split at h
  all_goals first
    | (exact objectsLoop_mono fuel _ _ _ _ _ _ h)
    | (injection h with hx
       subst hx
       exact ⟨[], by simp⟩)

-- ---------------------------------------------------------------------------
-- Concrete scene files for the end-to-end claims
-- ---------------------------------------------------------------------------

/-- A 69-byte scene file: header with data_offset 28, string buffer offset 44
and objectCount 1; one object block (type index 0 = SceneRoot, name index
1 = Root, unknown field, terminator -1); a string table with the two strings
SceneRoot and Root.  The block carries no properties, so the children list
stays empty and no geometryBuffer is set. -/
def c2file : List Nat :=
  i32enc 0 ++ i32enc 0 ++ i32enc 28 ++ i32enc 44 ++ i32enc 0 ++ i32enc 0 ++
  i32enc 1 ++ i32enc 0 ++ i32enc 1 ++ i32enc 0 ++ i32enc (-1) ++
  i32enc 2 ++ i32enc 9 ++ ascii "SceneRoot" ++ i32enc 4 ++ ascii "Root"

/-- The SceneRoot object parsed from c2file. -/
def c2obj : PObj :=
  { cls := ObjClass.sceneRoot, typeStr := ascii "SceneRoot",
    name := ascii "Root" }

/-- Claim C2 (evidence for the code bug): parsing c2file produces a
name-keyed object map with exactly one entry and the scene build step finds
the SceneRoot and emits no meshes or skeletons, as the claim says — but the
flat object list obj_arr receives the object twice, because
parse_object_block appends the object both at the end of its try block and
again in the duplicated lines after the except handler, so obj_arr has two
elements where the claim (and the evident intent) says one. -/
theorem claim_c2 :
    parse_file 9 ⟨[], [], []⟩ c2file =
      some ⟨[ascii "SceneRoot", ascii "Root"], [c2obj, c2obj],
            [(ascii "Root", c2obj)]⟩ ∧
    c2obj.cls = ObjClass.sceneRoot ∧
    c2obj.name = ascii "Root" ∧
    c2obj.children = [] ∧
    c2obj.geometryBuffer.name = [] ∧
    [(ascii "Root", c2obj)].length = 1 ∧
    [c2obj, c2obj].length = 2 ∧
    build_blender_scene ⟨[ascii "SceneRoot", ascii "Root"], [c2obj, c2obj],
      [(ascii "Root", c2obj)]⟩ 1 none none = some [] := by
  refine ⟨by decide, by decide, by decide, by decide, by decide, by decide,
    by decide, by decide⟩

/-- A 55-byte scene file whose string table is truncated: string count 2,
first entry the one-byte string X, and only two bytes left where the second
length field should be, so its read fails.  The data region (offset 28,
one block: type index 0, name index 0, unknown, terminator -1) is intact. -/
def c3file : List Nat :=
  i32enc 0 ++ i32enc 0 ++ i32enc 28 ++ i32enc 44 ++ i32enc 0 ++ i32enc 0 ++
  i32enc 1 ++ i32enc 0 ++ i32enc 0 ++ i32enc 0 ++ i32enc (-1) ++
  i32enc 2 ++ i32enc 1 ++ [88] ++ [0, 0]

/-- The object decoded from the data region of c3file (an unknown dynamic
type named X). -/
def c3obj : PObj :=
  { cls := ObjClass.unknown, typeStr := [88], name := [88] }

/-- An object merged from a previously parsed file. -/
def c3prior : PObj :=
  { cls := ObjClass.texture, typeStr := ascii "Texture", name := [77] }

/-- Claim C3 counterexample: in c3file the string count (2) reads fine and
the second string-length read fails (truncated input); the string table is
exactly the entries decoded before the failure — but the parser does NOT
abort: the failed entry is skipped with continue, parse_file proceeds to the
data offset and decodes the object block, so the object array is not left
empty. -/
theorem claim_c3_counterexample :
    (read_long1 ⟨c3file, 53⟩).1 = none ∧
    parse_file 9 ⟨[], [], []⟩ c3file =
      some ⟨[[88]], [c3obj, c3obj], [([88], c3obj)]⟩ ∧
    [c3obj, c3obj] ≠ ([] : List PObj) := by
  refine ⟨by decide, by decide, by decide⟩

/-- Claim C3 (amended): on a truncated string entry the parser skips that
entry (the table is exactly the entries decoded before the failure) and
continues: it still seeks the data offset and decodes object blocks with the
truncated table; and in general parse_file only appends to the object array,
so objects already merged from previously parsed files remain unchanged. -/
theorem claim_c3 :
    (∀ (fuel : Nat) (st : ParserState) (file : List Nat) (st' : ParserState),
      parse_file fuel st file = some st' →
      ∃ t, st'.objArr = st.objArr ++ t) ∧
    ((read_long1 ⟨c3file, 53⟩).1 = none ∧
     parse_file 9 ⟨[[77]], [c3prior], [([77], c3prior)]⟩ c3file =
       some ⟨[[88]], [c3prior, c3obj, c3obj],
             [([77], c3prior), ([88], c3obj)]⟩) := by
  refine ⟨parse_file_mono, by decide, by decide⟩

theorem claim_c3_witness :
    ∃ t, ([c3prior, c3obj, c3obj] : List PObj) = [c3prior] ++ t :=
  claim_c3.1 9 ⟨[[77]], [c3prior], [([77], c3prior)]⟩ c3file
    ⟨[[88]], [c3prior, c3obj, c3obj], [([77], c3prior), ([88], c3obj)]⟩
    claim_c3.2.2
